import Mathlib

set_option allowUnsafeReducibility true
attribute [local semireducible] Rat.mul Rat.inv Rat.add Rat.sub

/-!
# Verification of the questionnaire-analysis program (`hw5.py`)

Shallow embedding of `src/hw5.py`.  The pandas `DataFrame` held in
`QuestionnaireAnalysis.data` is modelled as a `Table`: a list of column
names together with a list of rows, each row a list of cells.  A cell is
`Option Value` — `none` is the absent marker (pandas `NaN` / JSON `null`),
`Value.num` a numeric entry (modelled exactly by `ℚ`; the floats occurring
in the program are means of small integers), `Value.str` a string entry.

Each method of the source class is translated to a pure function on
`Table`; fallible pandas operations (boolean masking with a mask that
contains NA, `astype('UInt8')` on out-of-range values) become `Except`.
-/

/-- A table cell's payload: a number (pandas float/int, modelled by `ℚ`)
or a string. -/
inductive Value where
  | num (q : ℚ)
  | str (s : String)
deriving DecidableEq

/-- A cell: `none` is the absent (NaN/null) marker. -/
abbrev Cell := Option Value

/-- The record table (`pd.DataFrame`): column names plus rows of cells. -/
structure Table where
  cols : List String
  rows : List (List Cell)
deriving DecidableEq

/-- Index of the first occurrence of column name `c` in a column list
(pandas column lookup). -/
def idxOf? (c : String) : List String → Option ℕ
  | [] => none
  | a :: l => if a = c then some 0 else (idxOf? c l).map (· + 1)

/-- Value of column `c` in row `r` (`df[c]` at one row); a missing column
or a short row reads as absent. -/
def lookupCell (cols : List String) (r : List Cell) (c : String) : Cell :=
  match idxOf? c cols with
  | some j => r.getD j none
  | none => none

/-- Numeric view of a cell: non-numeric content counts as absent, matching
how the numeric pandas operations of the source see a cell. -/
def toQ : Cell → Option ℚ
  | some (Value.num q) => some q
  | _ => none

/-- `True` iff the character list contains a `'q'` immediately followed by
a decimal digit — the substring-search semantics of
`Series.str.contains(r'q\d')` used on the column index (hw5.py lines 67,
91, 109). -/
def hasQDigitAux : List Char → Bool
  | a :: b :: rest => (a = 'q' && b.isDigit) || hasQDigitAux (b :: rest)
  | _ => false

/-- `self.data.columns.str.contains(r'q\d')` for one column name. -/
def hasQDigit (s : String) : Bool :=
  hasQDigitAux s.toList

/-- The question columns discovered by the source:
`self.data.columns[self.data.columns.str.contains(r'q\d')]`. -/
def qColumns (t : Table) : List String :=
  t.cols.filter hasQDigit

/-- Mean of a list of rationals; the mean of an empty list is absent
(pandas returns NaN there). -/
def meanQ (xs : List ℚ) : Option ℚ :=
  if xs.length = 0 then none else some (xs.sum / (xs.length : ℚ))

/-- The question cells of one row, in question-column order, viewed
numerically. -/
def qCells (t : Table) (r : List Cell) : List (Option ℚ) :=
  (qColumns t).map (fun c => toQ (lookupCell t.cols r c))

/-- Rectangularity of a table: every row has one cell per column.  A
`DataFrame` is rectangular by construction. -/
def WF (t : Table) : Prop :=
  ∀ r ∈ t.rows, r.length = t.cols.length

instance (t : Table) : Decidable (WF t) := by
  unfold WF
  infer_instance

/-- Number of absent entries among some cells
(`isna().sum(axis=1)` on one row). -/
def nanCount (cs : List (Option ℚ)) : ℕ :=
  cs.countP (fun c => c.isNone)

/-- Raw score of one row: floor of the mean of the present question
values (`mean(numeric_only=True, axis=1).apply(np.floor)`, line 92);
absent when every question value is absent. -/
def rowScore (cs : List (Option ℚ)) : Option ℤ :=
  (meanQ (cs.filterMap id)).map Rat.floor

/-- `astype('UInt8')` on one (already floored) value: pandas' nullable
integer cast is checked, it raises on values outside `[0, 255]` rather
than truncating. -/
def astypeUInt8 (x : Option ℤ) : Except String (Option ℤ) :=
  match x with
  | none => Except.ok none
  | some n =>
      if 0 ≤ n ∧ n ≤ 255 then Except.ok (some n)
      else Except.error "cannot safely cast non-equivalent values to UInt8"

/-- Effectful map over a list in `Except`, stopping at the first error —
the order in which pandas casts a whole series. -/
def mapME (f : α → Except String β) : List α → Except String (List β)
  | [] => Except.ok []
  | a :: l =>
      match f a with
      | Except.error e => Except.error e
      | Except.ok b =>
          match mapME f l with
          | Except.error e => Except.error e
          | Except.ok bs => Except.ok (b :: bs)

/-- `df[c] = vals` (line 94): overwrite column `c` if it exists, else
append it on the right. -/
def setColumn (t : Table) (c : String) (vals : List Cell) : Table :=
  match idxOf? c t.cols with
  | some j => ⟨t.cols, List.zipWith (fun r v => r.set j v) t.rows vals⟩
  | none => ⟨t.cols ++ [c], List.zipWith (fun r v => r ++ [v]) t.rows vals⟩

/-- `score_subjects` (hw5.py lines 71–96): per-row floor-of-mean of the
question columns, cast to nullable `UInt8`, then rows with more than
`maximal_nans_per_sub` absent question values are masked to absent, and
the result is added to a copy of the table as column `"score"`.  The cast
happens before the masking, exactly as in line 92–93. -/
def score_subjects (t : Table) (maximal_nans_per_sub : ℕ) : Except String Table :=
  match mapME astypeUInt8 (t.rows.map (fun r => rowScore (qCells t r))) with
  | Except.error e => Except.error e
  | Except.ok casted =>
      Except.ok (setColumn t "score"
        ((List.zipWith
            (fun r s => if maximal_nans_per_sub < nanCount (qCells t r) then none else s)
            t.rows casted).map (fun s => s.map (fun n : ℤ => Value.num (n : ℚ)))))

/-- Mean of the non-absent values of question column `c` over all rows
(`self.data[q_columns].mean()` for one column, line 69). -/
def colMeanQ (t : Table) (c : String) : Option ℚ :=
  meanQ ((t.rows.map (fun r => toQ (lookupCell t.cols r c))).filterMap id)

/-- `fill_na_with_mean` (hw5.py lines 55–69): the question-columns-only
table with every absent cell replaced by its column's mean (an all-absent
column has an absent mean and stays absent, as `fillna` with NaN leaves
NaN), paired with the original row positions that had at least one absent
question value. -/
def fill_na_with_mean (t : Table) : Table × List ℕ :=
  (⟨qColumns t,
    t.rows.map (fun r => (qColumns t).map (fun c =>
      match toQ (lookupCell t.cols r c) with
      | some v => some (Value.num v)
      | none => (colMeanQ t c).map (fun q => Value.num q)))⟩,
   (List.range t.rows.length).filter
     (fun i => (qCells t (t.rows.getD i [])).any (fun x => x.isNone)))

/-- One step of `re.search(r'\w+@\w.\w+', ·)` over a character list:
the pattern matches somewhere iff five consecutive characters are
word, `'@'`, word, any-but-newline, word (`\w+` needs one word character
adjacent to the `@` on each side; the regex `.` matches any character
except a newline). -/
def emailSearchAux : List Char → Bool
  | a :: b :: c :: d :: e :: rest =>
      (a.isAlphanum || a = '_') && b = '@' && (c.isAlphanum || c = '_')
        && !(d = '\n') && (e.isAlphanum || e = '_')
        || emailSearchAux (b :: c :: d :: e :: rest)
  | _ => false

/-- `Series.str.contains(r'\w+@\w.\w+')` on one present string. -/
def emailMatches (s : String) : Bool :=
  emailSearchAux s.toList

/-- `str.contains` on one cell of the email column: `none` (pandas NaN in
the mask) when the cell is absent or not a string. -/
def pyEmailMask (e : Cell) : Option Bool :=
  match e with
  | some (Value.str s) => some (emailMatches s)
  | _ => none

/-- The email column, `self.data['email']`. -/
def emailCells (t : Table) : List Cell :=
  t.rows.map (fun r => lookupCell t.cols r "email")

/-- Selection step of line 53 for one indexed email cell: keep the pair
(original index, email string) when the mask is true there. -/
def pickEmail (p : ℕ × Cell) : Option (ℕ × String) :=
  match p.2 with
  | some (Value.str s) => if emailMatches s then some (p.1, s) else none
  | _ => none

/-- `remove_rows_without_mail` (hw5.py lines 44–53):
`self.data['email'][self.data['email'].str.contains(r'\w+@\w.\w+')].reset_index()`.
Boolean masking raises when the mask contains NA (as pandas does for an
absent email); otherwise the result is the list of (old index, email)
pairs — the `reset_index`-ed series, whose fresh ordinal index is the
position in the list and whose `index` column is the first component. -/
def remove_rows_without_mail (t : Table) : Except String (List (ℕ × String)) :=
  if ((emailCells t).map pyEmailMask).all (fun b => b.isSome) then
    Except.ok ((emailCells t).enum.filterMap pickEmail)
  else
    Except.error "Cannot mask with non-boolean array containing NA or NaN values"

/-- The 11 bin edges `np.arange(0, 101, 10)` of line 37. -/
def binEdges : List ℚ :=
  [0, 10, 20, 30, 40, 50, 60, 70, 80, 90, 100]

/-- The ten bin counts of `np.histogram(·, bins=np.arange(0, 101, 10))`,
one `countP` per bin: with monotone edges `e_0 < … < e_10`, `np.histogram`
counts bin `i` as the values in `[e_i, e_(i+1))`, except that the last bin
also includes its right edge.  Values below 0 or above 100 fall in no
bin. -/
def histogram (ages : List ℚ) : List ℕ :=
  [ages.countP (fun a => decide ((0 : ℚ) ≤ a ∧ a < 10)),
   ages.countP (fun a => decide ((10 : ℚ) ≤ a ∧ a < 20)),
   ages.countP (fun a => decide ((20 : ℚ) ≤ a ∧ a < 30)),
   ages.countP (fun a => decide ((30 : ℚ) ≤ a ∧ a < 40)),
   ages.countP (fun a => decide ((40 : ℚ) ≤ a ∧ a < 50)),
   ages.countP (fun a => decide ((50 : ℚ) ≤ a ∧ a < 60)),
   ages.countP (fun a => decide ((60 : ℚ) ≤ a ∧ a < 70)),
   ages.countP (fun a => decide ((70 : ℚ) ≤ a ∧ a < 80)),
   ages.countP (fun a => decide ((80 : ℚ) ≤ a ∧ a < 90)),
   ages.countP (fun a => decide ((90 : ℚ) ≤ a ∧ a ≤ 100))]

/-- The non-absent ages, `self.data['age'].dropna()`. -/
def presentAges (t : Table) : List ℚ :=
  (t.rows.map (fun r => toQ (lookupCell t.cols r "age"))).filterMap id

/-- `show_age_distrib` (hw5.py lines 28–42): the pair (counts, bin edges)
returned by line 37; the plotting calls are side effects outside the
numeric contract. -/
def show_age_distrib (t : Table) : List ℕ × List ℚ :=
  (histogram (presentAges t), binEdges)

/-- `corr_df['age'] > 40` for one cell (line 110): a comparison against
NaN is false in pandas, so an absent age yields `false`. -/
def above40 (age : Option ℚ) : Bool :=
  match age with
  | some a => decide (40 < a)
  | none => false

/-- Lines 110–111 of the source: each row keyed by its (gender,
above-40) pair, carrying its question cells. -/
def gaKeyed (t : Table) : List ((Option Value × Bool) × List (Option ℚ)) :=
  t.rows.map (fun r =>
    ((lookupCell t.cols r "gender", above40 (toQ (lookupCell t.cols r "age"))),
     qCells t r))

/-- The question cells of the rows grouped under key `k`: `groupby` keeps
a keyed row exactly when its key equals `(some k.1, k.2)`, so a row whose
gender is absent lands in no group. -/
def gaGrp (t : Table) (k : Value × Bool) : List (List (Option ℚ)) :=
  (gaKeyed t).filterMap (fun p => if p.1 = (some k.1, k.2) then some p.2 else none)

/-- `correlate_gender_age` (hw5.py lines 98–115): replace `age` by the
above-40 flag, group the question columns by the (gender, flag) levels of
the MultiIndex of line 111 — `groupby` drops rows whose gender level is
NaN — and take each group's per-column mean, skipping absent values.  The
result is represented as the map from a group key to its list of
per-question-column means (`none` for a key with no rows); `groupby`'s
sorted output order carries no extra information beyond this map. -/
def correlate_gender_age (t : Table) : Value × Bool → Option (List (Option ℚ)) :=
  fun k =>
    if (gaGrp t k).isEmpty then none
    else some ((List.range (qColumns t).length).map
      (fun j => meanQ (((gaGrp t k).map (fun cs => cs.getD j none)).filterMap id)))

/-- The rows of the group keyed `k`, written from the words of the claim:
the rows whose gender equals `k.1` and whose above-40 flag equals `k.2`. -/
def gaGroupRows (t : Table) (k : Value × Bool) : List (List Cell) :=
  t.rows.filter (fun r =>
    decide (lookupCell t.cols r "gender" = some k.1
      ∧ above40 (toQ (lookupCell t.cols r "age")) = k.2))

/-- `correlate_gender_age` as the claim states it: for each observed
group (gender, above-40) the mean of every question column over that
group's rows, ignoring absent values. -/
def correlate_gender_age_claim (t : Table) : Value × Bool → Option (List (Option ℚ)) :=
  fun k =>
    if (gaGroupRows t k).isEmpty then none
    else some ((qColumns t).map (fun c =>
      meanQ (((gaGroupRows t k).map (fun r => toQ (lookupCell t.cols r c))).filterMap id)))

/-- The table with the rows of absent gender removed. -/
def dropAbsentGender (t : Table) : Table :=
  ⟨t.cols, t.rows.filter (fun r => !(lookupCell t.cols r "gender").isNone)⟩

/-- The file system seen by the program: each existing path carries the
table that parsing its content would yield. -/
def FileSystem : Type :=
  String → Option Table

/-- The analysis object: the stored path and the loaded table
(`self.data`, `None` until `read_data` runs). -/
structure QuestionnaireAnalysis where
  data_fname : String
  data : Option Table
deriving DecidableEq

/-- `__init__` (hw5.py lines 16–20): raise `ValueError` when the path
does not exist, otherwise store the path and set `self.data = None`
without touching the file's content. -/
def QuestionnaireAnalysis.init (fs : FileSystem) (p : String) :
    Except String QuestionnaireAnalysis :=
  match fs p with
  | some _ => Except.ok ⟨p, none⟩
  | none => Except.error ("File " ++ p ++ " does not exist")

/-- `read_data` (hw5.py lines 22–26): load the table from the stored
path into `self.data`. -/
def QuestionnaireAnalysis.read_data (fs : FileSystem)
    (qa : QuestionnaireAnalysis) : QuestionnaireAnalysis :=
  { qa with data := fs qa.data_fname }

/-- Method form of `show_age_distrib`: the result together with the
object state after the call (the method reads `self.data` and assigns
nothing to `self`). -/
def QuestionnaireAnalysis.run_show_age_distrib (qa : QuestionnaireAnalysis) :
    Except String (List ℕ × List ℚ) × QuestionnaireAnalysis :=
  (match qa.data with
   | some t => Except.ok (show_age_distrib t)
   | none => Except.error "TypeError: self.data is None", qa)

/-- Method form of `remove_rows_without_mail`. -/
def QuestionnaireAnalysis.run_remove_rows_without_mail (qa : QuestionnaireAnalysis) :
    Except String (List (ℕ × String)) × QuestionnaireAnalysis :=
  (match qa.data with
   | some t => remove_rows_without_mail t
   | none => Except.error "TypeError: self.data is None", qa)

/-- Method form of `fill_na_with_mean`. -/
def QuestionnaireAnalysis.run_fill_na_with_mean (qa : QuestionnaireAnalysis) :
    Except String (Table × List ℕ) × QuestionnaireAnalysis :=
  (match qa.data with
   | some t => Except.ok (fill_na_with_mean t)
   | none => Except.error "TypeError: self.data is None", qa)

/-- Method form of `score_subjects`; the method builds its result from
`self.data.copy()` (line 90) and never assigns to `self`. -/
def QuestionnaireAnalysis.run_score_subjects (qa : QuestionnaireAnalysis)
    (maximal_nans_per_sub : ℕ) :
    Except String Table × QuestionnaireAnalysis :=
  (match qa.data with
   | some t => score_subjects t maximal_nans_per_sub
   | none => Except.error "TypeError: self.data is None", qa)

/-- Method form of `correlate_gender_age`; the method works on
`self.data.copy()` (line 108) and never assigns to `self`. -/
def QuestionnaireAnalysis.run_correlate_gender_age (qa : QuestionnaireAnalysis) :
    Except String (Value × Bool → Option (List (Option ℚ))) × QuestionnaireAnalysis :=
  (match qa.data with
   | some t => Except.ok (correlate_gender_age t)
   | none => Except.error "TypeError: self.data is None", qa)

/-- A column name of the exact form `q` followed by one or more digits —
the reading used by the claim, as opposed to the substring search the
source performs. -/
def fullQMatch (s : String) : Bool :=
  match s.toList with
  | 'q' :: rest => !rest.isEmpty && rest.all Char.isDigit
  | _ => false

/-- Shorthand for a numeric cell. -/
def nc (q : ℚ) : Cell :=
  some (Value.num q)

/-- Shorthand for a string cell. -/
def sc (s : String) : Cell :=
  some (Value.str s)

/-- The table of the scoring example: question values `[5, 5, absent]`
and `[5, absent, absent]`. -/
def exScoreTable : Table :=
  ⟨["q1", "q2", "q3"], [[nc 5, nc 5, none], [nc 5, none, none]]⟩

/-- The table of the imputation example: question column `[2, absent, 4]`. -/
def exImputeTable : Table :=
  ⟨["q1"], [[nc 2], [none], [nc 4]]⟩

/-- The table of the email example:
`["a@b.com", "bad-email", "x@y.z"]`, all present. -/
def exEmailTable : Table :=
  ⟨["email"], [[sc "a@b.com"], [sc "bad-email"], [sc "x@y.z"]]⟩

/-- A table with one present and one absent email. -/
def exEmailAbsentTable : Table :=
  ⟨["email"], [[sc "a@b.com"], [none]]⟩

/-- A table whose single age, 150, lies outside the histogram range. -/
def exAgeOutOfRangeTable : Table :=
  ⟨["age"], [[nc 150]]⟩

/-- A table whose age column is entirely absent. -/
def exAgeAbsentTable : Table :=
  ⟨["age", "q1"], [[none, nc 1], [none, nc 2]]⟩

/-- A table with a column named `seq2`, which is not of the form
`q<digits>` but contains `q2` as a substring. -/
def exSeqTable : Table :=
  ⟨["seq2", "age"], [[nc 1, nc 30]]⟩

/-- A one-file file system for the construction example. -/
def exFS : FileSystem :=
  fun p => if p = "data.json" then some exScoreTable else none

/-- The table `score_subjects exScoreTable 1` returns. -/
def exScoreOut : Table :=
  ⟨["q1", "q2", "q3", "score"],
   [[nc 5, nc 5, none, nc 5], [nc 5, none, none, none]]⟩

/-- Whether a cell holds a present string. -/
def isStrCell : Cell → Bool
  | some (Value.str _) => true
  | _ => false

/-! ## Helper lemmas -/

theorem hasQDigitAux_iff : ∀ cs : List Char,
    hasQDigitAux cs = true ↔
      ∃ i, cs.get? i = some 'q' ∧ ∃ d, cs.get? (i + 1) = some d ∧ d.isDigit = true
  | [] => by
      constructor
      · intro h
        simp [hasQDigitAux] at h
      · rintro ⟨i, hi, _⟩
        simp at hi
  | [a] => by
      constructor
      · intro h
        simp [hasQDigitAux] at h
      · rintro ⟨i, hi, d, hd, _⟩
        cases i with
        | zero => simp at hd
        | succ i2 => simp at hi
  | a :: b :: rest => by
      rw [hasQDigitAux]
      constructor
      · intro h
        rcases Bool.or_eq_true_iff.mp h with h1 | h2
        · have h1b : a = 'q' ∧ b.isDigit = true := by simpa using h1
          exact ⟨0, by simp [h1b.1], b, rfl, h1b.2⟩
        · obtain ⟨i, hi, d, hd, hdig⟩ := (hasQDigitAux_iff (b :: rest)).mp h2
          exact ⟨i + 1, hi, d, hd, hdig⟩
      · rintro ⟨i, hi, d, hd, hdig⟩
        cases i with
        | zero =>
            apply Bool.or_eq_true_iff.mpr
            left
            have ha : a = 'q' := by simpa using hi
            have hb : b = d := by simpa using hd
            simp [ha, hb, hdig]
        | succ i2 =>
            apply Bool.or_eq_true_iff.mpr
            right
            exact (hasQDigitAux_iff (b :: rest)).mpr ⟨i2, hi, d, hd, hdig⟩

/-- C7 counterexample: the column name `seq2` is not of the form
`q<one or more digits>`, yet the source's substring search
`columns.str.contains(r'q\d')` selects it as a question column, so the
set of question columns is not exactly the full-pattern matches the
claim describes. -/
theorem qColumns_takes_seq2 :
    "seq2" ∈ qColumns exSeqTable ∧ fullQMatch "seq2" = false := by
  exact ⟨by decide, by decide⟩

/-- C7 (amended): in every operation the set of question columns is
exactly the columns whose name CONTAINS `q` immediately followed by a
digit (substring semantics of `str.contains(r'q\d')`), not only the
full-pattern names; all three operations use this one column set
(`fill_na_with_mean` shown here returns it as its column list, and
`score_subjects` and `correlate_gender_age` read cells through the same
`qColumns`/`qCells`). -/
theorem qColumns_spec :
    ∀ (t : Table) (c : String),
      (c ∈ qColumns t ↔ c ∈ t.cols ∧ ∃ i, c.toList.get? i = some 'q'
          ∧ ∃ d, c.toList.get? (i + 1) = some d ∧ d.isDigit = true)
      ∧ (fill_na_with_mean t).1.cols = qColumns t := by
  intro t c
  constructor
  · unfold qColumns
    rw [List.mem_filter]
    exact and_congr_right (fun _ => hasQDigitAux_iff c.toList)
  · rfl

/-- C7 witness: the characterization applied to the `seq2` table. -/
theorem qColumns_spec_witness :
    ("seq2" ∈ qColumns exSeqTable ↔ "seq2" ∈ exSeqTable.cols
        ∧ ∃ i, "seq2".toList.get? i = some 'q'
          ∧ ∃ d, "seq2".toList.get? (i + 1) = some d ∧ d.isDigit = true)
    ∧ (fill_na_with_mean exSeqTable).1.cols = qColumns exSeqTable :=
  qColumns_spec exSeqTable "seq2"

/-- C8: no analysis method mutates the stored table — each method call
returns the object state unchanged, and calling the method again on the
state a first call left behind returns the same answer and the same
state (`score_subjects` builds its result from a copy, line 90, and
`correlate_gender_age` from a copy, line 108). -/
theorem analysis_ops_pure :
    ∀ (qa : QuestionnaireAnalysis) (m : ℕ),
      (qa.run_show_age_distrib.2 = qa
        ∧ qa.run_show_age_distrib.2.run_show_age_distrib = qa.run_show_age_distrib)
      ∧ (qa.run_remove_rows_without_mail.2 = qa
        ∧ qa.run_remove_rows_without_mail.2.run_remove_rows_without_mail
            = qa.run_remove_rows_without_mail)
      ∧ (qa.run_fill_na_with_mean.2 = qa
        ∧ qa.run_fill_na_with_mean.2.run_fill_na_with_mean = qa.run_fill_na_with_mean)
      ∧ ((qa.run_score_subjects m).2 = qa
        ∧ (qa.run_score_subjects m).2.run_score_subjects m = qa.run_score_subjects m)
      ∧ (qa.run_correlate_gender_age.2 = qa
        ∧ qa.run_correlate_gender_age.2.run_correlate_gender_age
            = qa.run_correlate_gender_age) := by
  intro qa m
  exact ⟨⟨rfl, rfl⟩, ⟨rfl, rfl⟩, ⟨rfl, rfl⟩, ⟨rfl, rfl⟩, ⟨rfl, rfl⟩⟩

/-- C9: construction fails with the file-does-not-exist error exactly
when the path does not exist, succeeds with `data = None` (nothing
loaded) when it does, and its outcome depends only on the existence of
the path, never on the file's content — reading happens only in the
separate `read_data` call. -/
theorem construct_contract :
    (∀ (fs : FileSystem) (p : String), fs p = none →
      QuestionnaireAnalysis.init fs p
        = Except.error ("File " ++ p ++ " does not exist"))
    ∧ (∀ (fs : FileSystem) (p : String) (t : Table), fs p = some t →
      QuestionnaireAnalysis.init fs p = Except.ok ⟨p, none⟩)
    ∧ (∀ (fs fs2 : FileSystem) (p : String), (fs p).isSome = (fs2 p).isSome →
      QuestionnaireAnalysis.init fs p = QuestionnaireAnalysis.init fs2 p) := by
  refine ⟨?_, ?_, ?_⟩
  · intro fs p h
    unfold QuestionnaireAnalysis.init
    rw [h]
  · intro fs p t h
    unfold QuestionnaireAnalysis.init
    rw [h]
  · intro fs fs2 p h
    unfold QuestionnaireAnalysis.init
    cases hfs : fs p <;> cases hfs2 : fs2 p <;> rw [hfs, hfs2] at h <;> simp_all

/-- C9 witness: on a file system holding only `data.json`, construction
from a missing path fails with the descriptive error and construction
from the existing path succeeds without loading anything. -/
theorem construct_contract_witness :
    QuestionnaireAnalysis.init exFS "missing.json"
        = Except.error ("File " ++ "missing.json" ++ " does not exist")
    ∧ QuestionnaireAnalysis.init exFS "data.json" = Except.ok ⟨"data.json", none⟩ :=
  ⟨construct_contract.1 exFS "missing.json" rfl,
   construct_contract.2.1 exFS "data.json" exScoreTable rfl⟩

theorem filterMap_map_filter_of {α κ β : Type} [DecidableEq κ]
    (rows : List α) (g : α → κ × β) (p : α → Bool) (key : κ)
    (h : ∀ a, (g a).1 = key → p a = true) :
    ((rows.filter p).map g).filterMap (fun q => if q.1 = key then some q.2 else none)
      = (rows.map g).filterMap (fun q => if q.1 = key then some q.2 else none) := by
  induction rows with
  | nil => rfl
  | cons a rest ih =>
      by_cases hp : p a = true
      · rw [List.filter_cons, if_pos hp, List.map_cons, List.map_cons,
          List.filterMap_cons, List.filterMap_cons, ih]
      · have hk : ¬((g a).1 = key) := fun hkk => hp (h a hkk)
        rw [List.filter_cons, if_neg hp, List.map_cons, List.filterMap_cons, ih]
        simp [hk]

/-- C10: rows whose gender is absent are silently dropped by the
grouping of `correlate_gender_age` — the result on any table equals the
result on the table with those rows removed, so an absent-gender row
contributes to no group and no absent-gender group key can appear (a key
carries a present `Value` by construction). -/
theorem correlate_drops_absent_gender :
    ∀ t : Table, correlate_gender_age t = correlate_gender_age (dropAbsentGender t) := by
  intro t
  funext k
  have hg : gaGrp (dropAbsentGender t) k = gaGrp t k := by
    show ((t.rows.filter (fun r => !(lookupCell t.cols r "gender").isNone)).map
        (fun r => ((lookupCell t.cols r "gender", above40 (toQ (lookupCell t.cols r "age"))),
          qCells t r))).filterMap
        (fun q => if q.1 = (some k.1, k.2) then some q.2 else none)
      = ((t.rows.map
        (fun r => ((lookupCell t.cols r "gender", above40 (toQ (lookupCell t.cols r "age"))),
          qCells t r))).filterMap
        (fun q => if q.1 = (some k.1, k.2) then some q.2 else none))
    refine filterMap_map_filter_of t.rows _ _ _ (fun r hr => ?_)
    have hgr : lookupCell t.cols r "gender" = some k.1 := congrArg Prod.fst hr
    rw [hgr]
    rfl
  simp only [correlate_gender_age, hg]
  rfl

theorem filterMap_map_pair {α κ β : Type} [DecidableEq κ]
    (rows : List α) (keyf : α → κ) (valf : α → β) (key : κ) :
    (rows.map (fun r => (keyf r, valf r))).filterMap
        (fun q => if q.1 = key then some q.2 else none)
      = (rows.filter (fun r => decide (keyf r = key))).map valf := by
  induction rows with
  | nil => rfl
  | cons a rest ih =>
      by_cases hk : keyf a = key
      · rw [List.map_cons, List.filterMap_cons, List.filter_cons]
        simp [hk, ih]
      · rw [List.map_cons, List.filterMap_cons, List.filter_cons]
        simp [hk, ih]

theorem getD_map_lt {α β : Type} (l : List α) (f : α → β) :
    ∀ (j : ℕ) (hj : j < l.length) (d : β), (l.map f).getD j d = f (l.get ⟨j, hj⟩) := by
  induction l with
  | nil =>
      intro j hj d
      cases hj
  | cons a tl ih =>
      intro j hj d
      cases j with
      | zero => rfl
      | succ j2 => exact ih j2 (Nat.lt_of_succ_lt_succ hj) d

theorem range_map_of_get {α β : Type} : ∀ (l : List α) (g : ℕ → β) (F : α → β),
    (∀ (j : ℕ) (hj : j < l.length), g j = F (l.get ⟨j, hj⟩)) →
    (List.range l.length).map g = l.map F
  | [], g, F, _ => rfl
  | a :: tl, g, F, h => by
      have e : List.range (a :: tl).length = 0 :: (List.range tl.length).map Nat.succ :=
        List.range_succ_eq_map tl.length
      rw [e, List.map_cons, List.map_map, h 0 (Nat.succ_pos _)]
      congr 1
      exact range_map_of_get tl (g ∘ Nat.succ) F (fun j hj => h (j + 1) (Nat.succ_lt_succ hj))

/-- C6: `correlate_gender_age` computes exactly what the claim states —
per row the above-40 flag (false for an absent age), rows grouped by the
(gender, flag) pair, and for each observed group the per-question-column
mean ignoring absent values; as a pure function of the table its result
is the same on every run over identical input, which settles the
determinism part of the claim. -/
theorem correlate_gender_age_matches_claim :
    ∀ t : Table, correlate_gender_age t = correlate_gender_age_claim t := by
  intro t
  funext k
  have hgrp : gaGrp t k = (gaGroupRows t k).map (fun r => qCells t r) := by
    show (t.rows.map (fun r => ((lookupCell t.cols r "gender",
        above40 (toQ (lookupCell t.cols r "age"))), qCells t r))).filterMap
        (fun q => if q.1 = (some k.1, k.2) then some q.2 else none)
      = (gaGroupRows t k).map (fun r => qCells t r)
    rw [filterMap_map_pair t.rows
      (fun r => (lookupCell t.cols r "gender", above40 (toQ (lookupCell t.cols r "age"))))
      (fun r => qCells t r) (some k.1, k.2)]
    unfold gaGroupRows
    congr 1
    apply List.filter_congr
    intro r _
    simp [Prod.ext_iff]
  unfold correlate_gender_age correlate_gender_age_claim
  rw [hgrp]
  cases hG : gaGroupRows t k with
  | nil => rfl
  | cons r0 grest =>
      rw [show (((r0 :: grest).map fun r => qCells t r).isEmpty) = false from rfl,
        show ((r0 :: grest).isEmpty : Bool) = false from rfl]
      rw [if_neg (by simp), if_neg (by simp)]
      congr 1
      apply range_map_of_get
      intro j hj
      rw [List.map_map]
      congr 1
      congr 1
      apply List.map_congr_left
      intro r2 _
      exact getD_map_lt (qColumns t) (fun c => toQ (lookupCell t.cols r2 c)) j hj none

theorem lookupCell_build : ∀ (qs : List String) (f : String → Cell) (c : String), c ∈ qs →
    lookupCell qs (qs.map f) c = f c
  | [], _, c, hc => absurd hc (List.not_mem_nil c)
  | a :: tl, f, c, hc => by
      by_cases h : a = c
      · subst h
        show lookupCell (a :: tl) (f a :: tl.map f) a = f a
        unfold lookupCell idxOf?
        simp
      · have hc2 : c ∈ tl := by
          rcases List.mem_cons.mp hc with h1 | h1
          · exact absurd h1.symm h
          · exact h1
        have ih := lookupCell_build tl f c hc2
        show lookupCell (a :: tl) (f a :: tl.map f) c = f c
        unfold lookupCell at ih ⊢
        unfold idxOf?
        rw [if_neg h]
        cases hidx : idxOf? c tl with
        | none =>
            rw [hidx] at ih
            simpa using ih
        | some j =>
            rw [hidx] at ih
            simpa using ih

theorem getD_map_of_get? {α β : Type} : ∀ (l : List α) (f : α → β) (i : ℕ) (a : α),
    l.get? i = some a → ∀ d : β, (l.map f).getD i d = f a
  | [], _, _, _, h => by simp at h
  | x :: tl, f, 0, a, h => by
      have hx : x = a := by simpa using h
      subst hx
      intro d
      rfl
  | x :: tl, f, i + 1, a, h => by
      intro d
      exact getD_map_of_get? tl f i a (by simpa using h) d

theorem filterMap_id_nil {α β : Type} : ∀ (l : List α) (f : α → Option β),
    (∀ a ∈ l, f a = none) → (l.map f).filterMap id = []
  | [], _, _ => rfl
  | a :: tl, f, h => by
      rw [List.map_cons, List.filterMap_cons]
      have ha : f a = none := h a (List.mem_cons_self a tl)
      simp only [ha, id]
      exact filterMap_id_nil tl f (fun x hx => h x (List.mem_cons_of_mem a hx))

theorem getD_of_get? {α : Type} : ∀ (l : List α) (i : ℕ) (a : α),
    l.get? i = some a → ∀ d : α, l.getD i d = a
  | [], _, _, h => by simp at h
  | x :: tl, 0, a, h => by
      have hx : x = a := by simpa using h
      subst hx
      intro d
      rfl
  | x :: tl, i + 1, a, h => by
      intro d
      exact getD_of_get? tl i a (by simpa using h) d

theorem lt_length_of_get? {α : Type} : ∀ (l : List α) (i : ℕ) (a : α),
    l.get? i = some a → i < l.length
  | [], _, _, h => by simp at h
  | x :: tl, 0, a, _ => Nat.succ_pos _
  | x :: tl, i + 1, a, h =>
      Nat.succ_lt_succ (lt_length_of_get? tl i a (by simpa using h))

/-- C2: `fill_na_with_mean` returns the question-columns-only table in
which a present question cell is unchanged and an absent one is replaced
by its column's mean over the non-absent values of all rows, together
with exactly the indices of the rows that have at least one absent
question value; the mean of a question column that is absent in every
row is itself absent, so such a column stays entirely absent. -/
theorem fill_na_with_mean_spec :
    ∀ (t : Table) (i : ℕ) (r : List Cell), t.rows.get? i = some r →
      ∀ c ∈ qColumns t,
      (fill_na_with_mean t).1.cols = qColumns t
      ∧ lookupCell (fill_na_with_mean t).1.cols ((fill_na_with_mean t).1.rows.getD i []) c
          = (match toQ (lookupCell t.cols r c) with
             | some v => some (Value.num v)
             | none => (colMeanQ t c).map (fun q => Value.num q))
      ∧ (i ∈ (fill_na_with_mean t).2 ↔ (qCells t r).any (fun x => x.isNone) = true)
      ∧ ((∀ r2 ∈ t.rows, toQ (lookupCell t.cols r2 c) = none) → colMeanQ t c = none) := by
  intro t i r hr c hc
  have hgd : t.rows.getD i [] = r := getD_of_get? t.rows i r hr []
  refine ⟨rfl, ?_, ?_, ?_⟩
  · have hrow : (fill_na_with_mean t).1.rows.getD i []
        = (qColumns t).map (fun c2 => match toQ (lookupCell t.cols r c2) with
            | some v => some (Value.num v)
            | none => (colMeanQ t c2).map (fun q => Value.num q)) := by
      show (t.rows.map _).getD i [] = _
      exact getD_map_of_get? t.rows _ i r hr []
    rw [hrow]
    exact lookupCell_build (qColumns t) _ c hc
  · show i ∈ (List.range t.rows.length).filter _ ↔ _
    rw [List.mem_filter, List.mem_range]
    constructor
    · rintro ⟨-, hp⟩
      rwa [hgd] at hp
    · intro hp
      exact ⟨lt_length_of_get? t.rows i r hr, by rwa [hgd]⟩
  · intro hall
    unfold colMeanQ
    rw [filterMap_id_nil t.rows _ hall]
    rfl

/-- C2 witness: on the `[2, absent, 4]` question column the middle cell
becomes the column mean 3 and the middle row index is reported. -/
theorem fill_na_with_mean_spec_witness :
    lookupCell (fill_na_with_mean exImputeTable).1.cols
        ((fill_na_with_mean exImputeTable).1.rows.getD 1 []) "q1" = nc 3
    ∧ 1 ∈ (fill_na_with_mean exImputeTable).2 := by
  have h := fill_na_with_mean_spec exImputeTable 1 [none] rfl "q1" (by decide)
  refine ⟨?_, ?_⟩
  · rw [h.2.1]
    rfl
  · exact h.2.2.1.mpr (by decide)

theorem get?_zipWith {α β γ : Type} (f : α → β → γ) :
    ∀ (l : List α) (m : List β) (i : ℕ),
      (List.zipWith f l m).get? i
        = match l.get? i, m.get? i with
          | some a, some b => some (f a b)
          | _, _ => none
  | [], m, i => by cases m <;> cases i <;> rfl
  | a :: tl, [], i => by cases i <;> simp [List.zipWith]
  | a :: tl, b :: tm, 0 => rfl
  | a :: tl, b :: tm, i + 1 => get?_zipWith f tl tm i

theorem astype_ok_eq : ∀ (x y : Option ℤ), astypeUInt8 x = Except.ok y → y = x := by
  intro x y h
  cases x with
  | none =>
      simp only [astypeUInt8, Except.ok.injEq] at h
      exact h.symm
  | some n =>
      by_cases hn : 0 ≤ n ∧ n ≤ 255
      · simp only [astypeUInt8, if_pos hn, Except.ok.injEq] at h
        exact h.symm
      · simp only [astypeUInt8, if_neg hn] at h
        cases h

theorem astype_some_range (n : ℤ) (b : Option ℤ)
    (h : astypeUInt8 (some n) = Except.ok b) : 0 ≤ n ∧ n ≤ 255 := by
  by_cases hn : 0 ≤ n ∧ n ≤ 255
  · exact hn
  · simp only [astypeUInt8, if_neg hn] at h
    cases h

theorem mapME_astype_ok : ∀ (l l2 : List (Option ℤ)),
    mapME astypeUInt8 l = Except.ok l2 → l2 = l
  | [], l2, h => by
      simp only [mapME, Except.ok.injEq] at h
      exact h.symm
  | a :: tl, l2, h => by
      unfold mapME at h
      cases hfa : astypeUInt8 a with
      | error e =>
          rw [hfa] at h
          cases h
      | ok b =>
          rw [hfa] at h
          cases hrec : mapME astypeUInt8 tl with
          | error e =>
              rw [hrec] at h
              cases h
          | ok bs =>
              rw [hrec] at h
              simp only [Except.ok.injEq] at h
              rw [← h, astype_ok_eq a b hfa, mapME_astype_ok tl bs hrec]

theorem mapME_elem_ok {α β : Type} (f : α → Except String β) :
    ∀ (l : List α) (l2 : List β), mapME f l = Except.ok l2 →
      ∀ a ∈ l, ∃ b, f a = Except.ok b
  | [], _, _, a, ha => absurd ha (List.not_mem_nil a)
  | x :: tl, l2, h, a, ha => by
      unfold mapME at h
      cases hfx : f x with
      | error e =>
          rw [hfx] at h
          cases h
      | ok b =>
          rw [hfx] at h
          cases hrec : mapME f tl with
          | error e =>
              rw [hrec] at h
              cases h
          | ok bs =>
              rcases List.mem_cons.mp ha with h1 | h1
              · exact ⟨b, h1 ▸ hfx⟩
              · exact mapME_elem_ok f tl bs hrec a h1

theorem idxOf?_append_self : ∀ (l : List String) (c : String), idxOf? c l = none →
    idxOf? c (l ++ [c]) = some l.length
  | [], c, _ => by simp [idxOf?]
  | a :: tl, c, h => by
      simp only [idxOf?] at h
      show (if a = c then some 0 else (idxOf? c (tl ++ [c])).map (· + 1))
          = some (a :: tl).length
      by_cases hac : a = c
      · rw [if_pos hac] at h
        cases h
      · rw [if_neg hac] at h ⊢
        have htl : idxOf? c tl = none := by
          cases hx : idxOf? c tl with
          | none => rfl
          | some j =>
              rw [hx] at h
              cases h
        rw [idxOf?_append_self tl c htl]
        rfl

theorem getD_append_length {α : Type} : ∀ (l : List α) (v d : α),
    (l ++ [v]).getD l.length d = v
  | [], _, _ => rfl
  | _ :: tl, v, d => getD_append_length tl v d

theorem score_cell_eq (t : Table) (m : ℕ) (out : Table) (hwf : WF t)
    (hs : idxOf? "score" t.cols = none) (h : score_subjects t m = Except.ok out)
    (i : ℕ) (r : List Cell) (hr : t.rows.get? i = some r) :
    lookupCell out.cols (out.rows.getD i []) "score"
      = (if m < nanCount (qCells t r) then none else rowScore (qCells t r)).map
          (fun n : ℤ => Value.num (n : ℚ)) := by
  unfold score_subjects at h
  cases hmm : mapME astypeUInt8 (t.rows.map (fun r2 => rowScore (qCells t r2))) with
  | error e =>
      rw [hmm] at h
      cases h
  | ok casted =>
      rw [hmm] at h
      have hc : casted = t.rows.map (fun r2 => rowScore (qCells t r2)) :=
        mapME_astype_ok _ casted hmm
      subst hc
      unfold setColumn at h
      rw [hs] at h
      simp only [Except.ok.injEq] at h
      subst h
      have hcast : (t.rows.map (fun r2 => rowScore (qCells t r2))).get? i
          = some (rowScore (qCells t r)) := by
        rw [List.get?_map, hr]
        rfl
      have hzip : (List.zipWith
          (fun r2 s => if m < nanCount (qCells t r2) then none else s)
          t.rows (t.rows.map (fun r2 => rowScore (qCells t r2)))).get? i
          = some (if m < nanCount (qCells t r) then none else rowScore (qCells t r)) := by
        rw [get?_zipWith, hr, hcast]
      have hvals : ((List.zipWith
          (fun r2 s => if m < nanCount (qCells t r2) then none else s)
          t.rows (t.rows.map (fun r2 => rowScore (qCells t r2)))).map
            (fun s => s.map (fun n : ℤ => Value.num (n : ℚ)))).get? i
          = some ((if m < nanCount (qCells t r) then none else rowScore (qCells t r)).map
              (fun n : ℤ => Value.num (n : ℚ))) := by
        rw [List.get?_map, hzip]
        rfl
      have hrows : (List.zipWith (fun r2 v => r2 ++ [v]) t.rows
          ((List.zipWith
            (fun r2 s => if m < nanCount (qCells t r2) then none else s)
            t.rows (t.rows.map (fun r2 => rowScore (qCells t r2)))).map
              (fun s => s.map (fun n : ℤ => Value.num (n : ℚ))))).get? i
          = some (r ++ [(if m < nanCount (qCells t r) then none
              else rowScore (qCells t r)).map (fun n : ℤ => Value.num (n : ℚ))]) := by
        rw [get?_zipWith, hr, hvals]
      have hgd := getD_of_get? _ i _ hrows ([] : List Cell)
      show lookupCell (t.cols ++ ["score"]) _ "score" = _
      rw [hgd]
      unfold lookupCell
      rw [idxOf?_append_self t.cols "score" hs]
      have hlen : r.length = t.cols.length := hwf r (List.get?_mem hr)
      rw [← hlen]
      show (r ++ [(if m < nanCount (qCells t r) then none
          else rowScore (qCells t r)).map (fun n : ℤ => Value.num (n : ℚ))]).getD r.length none
        = (if m < nanCount (qCells t r) then none
          else rowScore (qCells t r)).map (fun n : ℤ => Value.num (n : ℚ))
      exact getD_append_length r _ none

/-- C1: on any table for which `score_subjects` returns a result, the
`score` cell of every row is the floor of the mean of that row's present
question values — absent when every question value is absent — except
that a row with strictly more than `maximal_nans_per_sub` absent
question values gets an absent score.  (The hypotheses: the table is
rectangular and has no column already named `score`, as a loaded
questionnaire table is and has.) -/
theorem score_subjects_spec :
    ∀ (t : Table) (m : ℕ) (out : Table), WF t → idxOf? "score" t.cols = none →
      score_subjects t m = Except.ok out →
      ∀ (i : ℕ) (r : List Cell), t.rows.get? i = some r →
        lookupCell out.cols (out.rows.getD i []) "score"
          = (if m < nanCount (qCells t r) then none else rowScore (qCells t r)).map
              (fun n : ℤ => Value.num (n : ℚ)) :=
  fun t m out hwf hs h i r hr => score_cell_eq t m out hwf hs h i r hr

/-- C1 witness: with threshold 1, the row `[5, 5, absent]` scores 5 and
the row `[5, absent, absent]` scores absent. -/
theorem score_subjects_spec_witness :
    lookupCell exScoreOut.cols (exScoreOut.rows.getD 0 []) "score" = nc 5
    ∧ lookupCell exScoreOut.cols (exScoreOut.rows.getD 1 []) "score" = none := by
  have h0 := score_subjects_spec exScoreTable 1 exScoreOut (by decide) (by decide) (by rfl)
    0 [nc 5, nc 5, none] rfl
  have h1 := score_subjects_spec exScoreTable 1 exScoreOut (by decide) (by decide) (by rfl)
    1 [nc 5, none, none] rfl
  constructor
  · rw [h0]
    rfl
  · rw [h1]
    rfl

/-- C5: every `score` cell a successful `score_subjects` run produces is
either absent or a numeric value in `[0, 255]`; there is no wrapped or
negative value, because the nullable-`UInt8` cast of line 92 validates
rather than truncates (an out-of-range floor would have made the call
fail instead of producing a row). -/
theorem score_subjects_range_spec :
    ∀ (t : Table) (m : ℕ) (out : Table), WF t → idxOf? "score" t.cols = none →
      score_subjects t m = Except.ok out →
      ∀ (i : ℕ) (r : List Cell), t.rows.get? i = some r →
        lookupCell out.cols (out.rows.getD i []) "score" = none
        ∨ ∃ n : ℤ, 0 ≤ n ∧ n ≤ 255
            ∧ lookupCell out.cols (out.rows.getD i []) "score"
                = some (Value.num (n : ℚ)) := by
  intro t m out hwf hs h i r hr
  have hcell := score_cell_eq t m out hwf hs h i r hr
  by_cases hm : m < nanCount (qCells t r)
  · left
    rw [hcell, if_pos hm]
    rfl
  · cases hrs : rowScore (qCells t r) with
    | none =>
        left
        rw [hcell, if_neg hm, hrs]
        rfl
    | some n =>
        right
        have hok : ∃ b, astypeUInt8 (rowScore (qCells t r)) = Except.ok b := by
          unfold score_subjects at h
          cases hmm : mapME astypeUInt8 (t.rows.map (fun r2 => rowScore (qCells t r2))) with
          | error e =>
              rw [hmm] at h
              cases h
          | ok casted =>
              exact mapME_elem_ok astypeUInt8 _ casted hmm (rowScore (qCells t r))
                (List.mem_map_of_mem _ (List.get?_mem hr))
        obtain ⟨b, hb⟩ := hok
        rw [hrs] at hb
        have hrange := astype_some_range n b hb
        refine ⟨n, hrange.1, hrange.2, ?_⟩
        rw [hcell, if_neg hm, hrs]
        rfl

/-- C5 witness: the first row of the scoring example carries the
in-range score 5. -/
theorem score_subjects_range_spec_witness :
    lookupCell exScoreOut.cols (exScoreOut.rows.getD 0 []) "score" = none
    ∨ ∃ n : ℤ, 0 ≤ n ∧ n ≤ 255
        ∧ lookupCell exScoreOut.cols (exScoreOut.rows.getD 0 []) "score"
            = some (Value.num (n : ℚ)) :=
  score_subjects_range_spec exScoreTable 1 exScoreOut (by decide) (by decide) (by rfl)
    0 [nc 5, nc 5, none] rfl

theorem pickEmail_some (p : ℕ × Cell) (q : ℕ × String) (h : pickEmail p = some q) :
    q.1 = p.1 ∧ p.2 = some (Value.str q.2) ∧ emailMatches q.2 = true := by
  obtain ⟨i, e⟩ := p
  cases e with
  | none => cases h
  | some v =>
      cases v with
      | num x => cases h
      | str s =>
          by_cases hm : emailMatches s = true
          · rw [show pickEmail (i, some (Value.str s))
                = if emailMatches s then some (i, s) else none from rfl, if_pos hm] at h
            cases h
            exact ⟨rfl, rfl, hm⟩
          · rw [show pickEmail (i, some (Value.str s))
                = if emailMatches s then some (i, s) else none from rfl, if_neg hm] at h
            cases h

theorem pickEmail_ge : ∀ (n : ℕ) (l : List Cell) (q : ℕ × String),
    q ∈ (List.enumFrom n l).filterMap pickEmail → n ≤ q.1
  | _, [], q, h => by simp [List.enumFrom] at h
  | n, a :: tl, q, h => by
      rw [show List.enumFrom n (a :: tl) = (n, a) :: List.enumFrom (n + 1) tl from rfl] at h
      cases hp : pickEmail (n, a) with
      | none =>
          rw [List.filterMap_cons_none hp] at h
          exact Nat.le_of_succ_le (pickEmail_ge (n + 1) tl q h)
      | some q0 =>
          rw [List.filterMap_cons_some hp] at h
          rcases List.mem_cons.mp h with h1 | h1
          · subst h1
            exact Nat.le_of_eq ((pickEmail_some (n, a) q hp).1).symm
          · exact Nat.le_of_succ_le (pickEmail_ge (n + 1) tl q h1)

theorem pickEmail_sound : ∀ (n : ℕ) (l : List Cell) (i : ℕ) (s : String),
    (i, s) ∈ (List.enumFrom n l).filterMap pickEmail →
      n ≤ i ∧ l.get? (i - n) = some (some (Value.str s)) ∧ emailMatches s = true
  | _, [], i, s, h => by simp [List.enumFrom] at h
  | n, a :: tl, i, s, h => by
      rw [show List.enumFrom n (a :: tl) = (n, a) :: List.enumFrom (n + 1) tl from rfl] at h
      cases hp : pickEmail (n, a) with
      | none =>
          rw [List.filterMap_cons_none hp] at h
          obtain ⟨hge, hget, hm⟩ := pickEmail_sound (n + 1) tl i s h
          refine ⟨Nat.le_of_succ_le hge, ?_, hm⟩
          rw [show i - n = (i - (n + 1)) + 1 from by omega]
          simpa using hget
      | some q0 =>
          rw [List.filterMap_cons_some hp] at h
          rcases List.mem_cons.mp h with h1 | h1
          · have hq := pickEmail_some (n, a) q0 hp
            rw [← h1] at hq
            obtain ⟨hq1, hq2, hq3⟩ := hq
            have hin : i = n := hq1
            have ha : a = some (Value.str s) := hq2
            refine ⟨Nat.le_of_eq hin.symm, ?_, hq3⟩
            rw [show i - n = 0 from by omega]
            simp [ha]
          · obtain ⟨hge, hget, hm⟩ := pickEmail_sound (n + 1) tl i s h1
            refine ⟨Nat.le_of_succ_le hge, ?_, hm⟩
            rw [show i - n = (i - (n + 1)) + 1 from by omega]
            simpa using hget

theorem pickEmail_complete : ∀ (n i : ℕ) (l : List Cell) (s : String),
    l.get? i = some (some (Value.str s)) → emailMatches s = true →
      (n + i, s) ∈ (List.enumFrom n l).filterMap pickEmail
  | _, i, [], s, hget, _ => by simp at hget
  | n, 0, a :: tl, s, hget, hm => by
      have ha : a = some (Value.str s) := by simpa using hget
      subst ha
      rw [show List.enumFrom n (some (Value.str s) :: tl)
          = (n, some (Value.str s)) :: List.enumFrom (n + 1) tl from rfl]
      have hp : pickEmail (n, some (Value.str s)) = some (n, s) := by
        rw [show pickEmail (n, some (Value.str s))
            = if emailMatches s then some (n, s) else none from rfl, if_pos hm]
      rw [List.filterMap_cons_some hp]
      exact List.mem_cons_self _ _
  | n, i + 1, a :: tl, s, hget, hm => by
      have hmem := pickEmail_complete (n + 1) i tl s (by simpa using hget) hm
      rw [show List.enumFrom n (a :: tl) = (n, a) :: List.enumFrom (n + 1) tl from rfl]
      cases hp : pickEmail (n, a) with
      | none =>
          rw [List.filterMap_cons_none hp, show n + (i + 1) = (n + 1) + i from by omega]
          exact hmem
      | some q0 =>
          rw [List.filterMap_cons_some hp]
          apply List.mem_cons_of_mem
          rw [show n + (i + 1) = (n + 1) + i from by omega]
          exact hmem

theorem pickEmail_pairwise : ∀ (n : ℕ) (l : List Cell),
    List.Pairwise (fun a b => a < b)
      (((List.enumFrom n l).filterMap pickEmail).map Prod.fst)
  | _, [] => List.Pairwise.nil
  | n, a :: tl => by
      rw [show List.enumFrom n (a :: tl) = (n, a) :: List.enumFrom (n + 1) tl from rfl]
      cases hp : pickEmail (n, a) with
      | none =>
          rw [List.filterMap_cons_none hp]
          exact pickEmail_pairwise (n + 1) tl
      | some q0 =>
          rw [List.filterMap_cons_some hp, List.map_cons]
          constructor
          · intro b hb
            rw [List.mem_map] at hb
            obtain ⟨q, hq, rfl⟩ := hb
            have hge := pickEmail_ge (n + 1) tl q hq
            rw [(pickEmail_some (n, a) q0 hp).1]
            omega
          · exact pickEmail_pairwise (n + 1) tl

theorem emailSearchAux_at : ∀ cs : List Char, emailSearchAux cs = true → '@' ∈ cs
  | [], h => by cases h
  | [_], h => by cases h
  | [_, _], h => by cases h
  | [_, _, _], h => by cases h
  | [_, _, _, _], h => by cases h
  | a :: b :: c :: d :: e :: rest, h => by
      rw [emailSearchAux] at h
      rcases Bool.or_eq_true_iff.mp h with h1 | h2
      · by_cases hb : b = '@'
        · subst hb
          exact List.mem_cons_of_mem a (List.mem_cons_self _ _)
        · simp [hb] at h1
      · exact List.mem_cons_of_mem a (emailSearchAux_at (b :: c :: d :: e :: rest) h2)

theorem mask_all_some (t : Table) (h : (emailCells t).all isStrCell = true) :
    ((emailCells t).map pyEmailMask).all (fun b => b.isSome) = true := by
  rw [List.all_eq_true] at h ⊢
  intro b hb
  rw [List.mem_map] at hb
  obtain ⟨e, he, rfl⟩ := hb
  have hstr := h e he
  cases e with
  | none => simp [isStrCell] at hstr
  | some v =>
      cases v with
      | num x => simp [isStrCell] at hstr
      | str s => rfl

/-- C3 counterexample: on a table whose email column holds one matching
email and one absent value, `remove_rows_without_mail` raises the pandas
boolean-masking error instead of excluding the absent row, because
`str.contains` leaves NA in the mask and `Series.__getitem__` refuses a
mask that contains NA. -/
theorem remove_rows_without_mail_errors_on_absent :
    remove_rows_without_mail exEmailAbsentTable
      = Except.error "Cannot mask with non-boolean array containing NA or NaN values" := by
  rfl

/-- C3 (amended): whenever every email cell holds a present string, the
operation succeeds and returns only the email column as (old index,
email) pairs — exactly the rows whose email matches `\w+@\w.\w+`, each
returned email containing an `@`, in the original relative order
(strictly increasing old indices), the position in the returned list
being the fresh contiguous ordinal index.  A table with an absent email
value instead fails with the masking error (see the counterexample). -/
theorem remove_rows_without_mail_spec :
    ∀ t : Table, (emailCells t).all isStrCell = true →
      ∃ l, remove_rows_without_mail t = Except.ok l
        ∧ (∀ i s, (i, s) ∈ l →
            (emailCells t).get? i = some (some (Value.str s))
            ∧ emailMatches s = true ∧ '@' ∈ s.toList)
        ∧ (∀ i s, (emailCells t).get? i = some (some (Value.str s)) →
            emailMatches s = true → (i, s) ∈ l)
        ∧ List.Pairwise (fun a b => a < b) (l.map Prod.fst) := by
  intro t hstr
  refine ⟨(emailCells t).enum.filterMap pickEmail, ?_, ?_, ?_, ?_⟩
  · unfold remove_rows_without_mail
    rw [if_pos (mask_all_some t hstr)]
  · intro i s hmem
    obtain ⟨-, hget, hm⟩ := pickEmail_sound 0 (emailCells t) i s hmem
    rw [Nat.sub_zero] at hget
    exact ⟨hget, hm, emailSearchAux_at s.toList hm⟩
  · intro i s hget hm
    have h := pickEmail_complete 0 i (emailCells t) s hget hm
    rw [Nat.zero_add] at h
    exact h
  · exact pickEmail_pairwise 0 (emailCells t)

/-- C3 witness: the amended statement applied to the example emails
`["a@b.com", "bad-email", "x@y.z"]`. -/
theorem remove_rows_without_mail_spec_witness :
    ∃ l, remove_rows_without_mail exEmailTable = Except.ok l
      ∧ (∀ i s, (i, s) ∈ l →
          (emailCells exEmailTable).get? i = some (some (Value.str s))
          ∧ emailMatches s = true ∧ '@' ∈ s.toList)
      ∧ (∀ i s, (emailCells exEmailTable).get? i = some (some (Value.str s)) →
          emailMatches s = true → (i, s) ∈ l)
      ∧ List.Pairwise (fun a b => a < b) (l.map Prod.fst) :=
  remove_rows_without_mail_spec exEmailTable (by decide)

theorem indT {P : Prop} [Decidable P] (h : P) : (if P then (1 : ℕ) else 0) = 1 :=
  if_pos h

theorem indF {P : Prop} [Decidable P] (h : ¬P) : (if P then (1 : ℕ) else 0) = 0 :=
  if_neg h

set_option maxHeartbeats 1600000 in
theorem histogram_sum : ∀ ages : List ℚ,
    (histogram ages).sum = ages.countP (fun a => decide ((0 : ℚ) ≤ a ∧ a ≤ 100))
  | [] => rfl
  | a :: tl => by
      have ih := histogram_sum tl
      unfold histogram at ih ⊢
      simp only [List.countP_cons, List.sum_cons, List.sum_nil, decide_eq_true_eq] at ih ⊢
      rw [← ih]
      rcases lt_or_le a 0 with hA | h0
      · rw [indF (by rintro ⟨u, v⟩; linarith), indF (by rintro ⟨u, v⟩; linarith),
          indF (by rintro ⟨u, v⟩; linarith), indF (by rintro ⟨u, v⟩; linarith),
          indF (by rintro ⟨u, v⟩; linarith), indF (by rintro ⟨u, v⟩; linarith),
          indF (by rintro ⟨u, v⟩; linarith), indF (by rintro ⟨u, v⟩; linarith),
          indF (by rintro ⟨u, v⟩; linarith), indF (by rintro ⟨u, v⟩; linarith),
          indF (by rintro ⟨u, v⟩; linarith)]
        omega
      rcases lt_or_le a 10 with hB | h10
      · rw [indT ⟨by linarith, by linarith⟩, indF (by rintro ⟨u, v⟩; linarith),
          indF (by rintro ⟨u, v⟩; linarith), indF (by rintro ⟨u, v⟩; linarith),
          indF (by rintro ⟨u, v⟩; linarith), indF (by rintro ⟨u, v⟩; linarith),
          indF (by rintro ⟨u, v⟩; linarith), indF (by rintro ⟨u, v⟩; linarith),
          indF (by rintro ⟨u, v⟩; linarith), indF (by rintro ⟨u, v⟩; linarith),
          indT ⟨by linarith, by linarith⟩]
        omega
      rcases lt_or_le a 20 with hB | h20
      · rw [indF (by rintro ⟨u, v⟩; linarith), indT ⟨by linarith, by linarith⟩,
          indF (by rintro ⟨u, v⟩; linarith), indF (by rintro ⟨u, v⟩; linarith),
          indF (by rintro ⟨u, v⟩; linarith), indF (by rintro ⟨u, v⟩; linarith),
          indF (by rintro ⟨u, v⟩; linarith), indF (by rintro ⟨u, v⟩; linarith),
          indF (by rintro ⟨u, v⟩; linarith), indF (by rintro ⟨u, v⟩; linarith),
          indT ⟨by linarith, by linarith⟩]
        omega
      rcases lt_or_le a 30 with hB | h30
      · rw [indF (by rintro ⟨u, v⟩; linarith), indF (by rintro ⟨u, v⟩; linarith),
          indT ⟨by linarith, by linarith⟩, indF (by rintro ⟨u, v⟩; linarith),
          indF (by rintro ⟨u, v⟩; linarith), indF (by rintro ⟨u, v⟩; linarith),
          indF (by rintro ⟨u, v⟩; linarith), indF (by rintro ⟨u, v⟩; linarith),
          indF (by rintro ⟨u, v⟩; linarith), indF (by rintro ⟨u, v⟩; linarith),
          indT ⟨by linarith, by linarith⟩]
        omega
      rcases lt_or_le a 40 with hB | h40
      · rw [indF (by rintro ⟨u, v⟩; linarith), indF (by rintro ⟨u, v⟩; linarith),
          indF (by rintro ⟨u, v⟩; linarith), indT ⟨by linarith, by linarith⟩,
          indF (by rintro ⟨u, v⟩; linarith), indF (by rintro ⟨u, v⟩; linarith),
          indF (by rintro ⟨u, v⟩; linarith), indF (by rintro ⟨u, v⟩; linarith),
          indF (by rintro ⟨u, v⟩; linarith), indF (by rintro ⟨u, v⟩; linarith),
          indT ⟨by linarith, by linarith⟩]
        omega
      rcases lt_or_le a 50 with hB | h50
      · rw [indF (by rintro ⟨u, v⟩; linarith), indF (by rintro ⟨u, v⟩; linarith),
          indF (by rintro ⟨u, v⟩; linarith), indF (by rintro ⟨u, v⟩; linarith),
          indT ⟨by linarith, by linarith⟩, indF (by rintro ⟨u, v⟩; linarith),
          indF (by rintro ⟨u, v⟩; linarith), indF (by rintro ⟨u, v⟩; linarith),
          indF (by rintro ⟨u, v⟩; linarith), indF (by rintro ⟨u, v⟩; linarith),
          indT ⟨by linarith, by linarith⟩]
        omega
      rcases lt_or_le a 60 with hB | h60
      · rw [indF (by rintro ⟨u, v⟩; linarith), indF (by rintro ⟨u, v⟩; linarith),
          indF (by rintro ⟨u, v⟩; linarith), indF (by rintro ⟨u, v⟩; linarith),
          indF (by rintro ⟨u, v⟩; linarith), indT ⟨by linarith, by linarith⟩,
          indF (by rintro ⟨u, v⟩; linarith), indF (by rintro ⟨u, v⟩; linarith),
          indF (by rintro ⟨u, v⟩; linarith), indF (by rintro ⟨u, v⟩; linarith),
          indT ⟨by linarith, by linarith⟩]
        omega
      rcases lt_or_le a 70 with hB | h70
      · rw [indF (by rintro ⟨u, v⟩; linarith), indF (by rintro ⟨u, v⟩; linarith),
          indF (by rintro ⟨u, v⟩; linarith), indF (by rintro ⟨u, v⟩; linarith),
          indF (by rintro ⟨u, v⟩; linarith), indF (by rintro ⟨u, v⟩; linarith),
          indT ⟨by linarith, by linarith⟩, indF (by rintro ⟨u, v⟩; linarith),
          indF (by rintro ⟨u, v⟩; linarith), indF (by rintro ⟨u, v⟩; linarith),
          indT ⟨by linarith, by linarith⟩]
        omega
      rcases lt_or_le a 80 with hB | h80
      · rw [indF (by rintro ⟨u, v⟩; linarith), indF (by rintro ⟨u, v⟩; linarith),
          indF (by rintro ⟨u, v⟩; linarith), indF (by rintro ⟨u, v⟩; linarith),
          indF (by rintro ⟨u, v⟩; linarith), indF (by rintro ⟨u, v⟩; linarith),
          indF (by rintro ⟨u, v⟩; linarith), indT ⟨by linarith, by linarith⟩,
          indF (by rintro ⟨u, v⟩; linarith), indF (by rintro ⟨u, v⟩; linarith),
          indT ⟨by linarith, by linarith⟩]
        omega
      rcases lt_or_le a 90 with hB | h90
      · rw [indF (by rintro ⟨u, v⟩; linarith), indF (by rintro ⟨u, v⟩; linarith),
          indF (by rintro ⟨u, v⟩; linarith), indF (by rintro ⟨u, v⟩; linarith),
          indF (by rintro ⟨u, v⟩; linarith), indF (by rintro ⟨u, v⟩; linarith),
          indF (by rintro ⟨u, v⟩; linarith), indF (by rintro ⟨u, v⟩; linarith),
          indT ⟨by linarith, by linarith⟩, indF (by rintro ⟨u, v⟩; linarith),
          indT ⟨by linarith, by linarith⟩]
        omega
      rcases le_or_lt a 100 with hB | hB
      · rw [indF (by rintro ⟨u, v⟩; linarith), indF (by rintro ⟨u, v⟩; linarith),
          indF (by rintro ⟨u, v⟩; linarith), indF (by rintro ⟨u, v⟩; linarith),
          indF (by rintro ⟨u, v⟩; linarith), indF (by rintro ⟨u, v⟩; linarith),
          indF (by rintro ⟨u, v⟩; linarith), indF (by rintro ⟨u, v⟩; linarith),
          indF (by rintro ⟨u, v⟩; linarith), indT ⟨by linarith, by linarith⟩,
          indT ⟨by linarith, by linarith⟩]
        omega
      · rw [indF (by rintro ⟨u, v⟩; linarith), indF (by rintro ⟨u, v⟩; linarith),
          indF (by rintro ⟨u, v⟩; linarith), indF (by rintro ⟨u, v⟩; linarith),
          indF (by rintro ⟨u, v⟩; linarith), indF (by rintro ⟨u, v⟩; linarith),
          indF (by rintro ⟨u, v⟩; linarith), indF (by rintro ⟨u, v⟩; linarith),
          indF (by rintro ⟨u, v⟩; linarith), indF (by rintro ⟨u, v⟩; linarith),
          indF (by rintro ⟨u, v⟩; linarith)]
        omega

/-- C4 counterexample: a table whose only row has age 150 has one
non-absent age, but `np.histogram` with edges `0,10,…,100` counts no
value outside `[0, 100]`, so the counts sum to 0, not to the number of
rows with a non-absent age. -/
theorem show_age_distrib_miscounts :
    (show_age_distrib exAgeOutOfRangeTable).1.sum
      ≠ (presentAges exAgeOutOfRangeTable).length := by
  decide

/-- C4 (amended): `show_age_distrib` returns exactly 10 bin counts and
the 11 edges `[0,10,…,100]`; the counts sum to the number of rows whose
age is non-absent AND lies in `[0, 100]` (an age outside the edge range
is dropped by `np.histogram`, see the counterexample); an entirely
absent age column yields all-zero counts. -/
theorem show_age_distrib_spec :
    ∀ t : Table,
      (show_age_distrib t).2 = [0, 10, 20, 30, 40, 50, 60, 70, 80, 90, 100]
      ∧ (show_age_distrib t).1.length = 10
      ∧ (show_age_distrib t).1.sum
          = (presentAges t).countP (fun a => decide ((0 : ℚ) ≤ a ∧ a ≤ 100))
      ∧ ((∀ r ∈ t.rows, toQ (lookupCell t.cols r "age") = none) →
          (show_age_distrib t).1 = [0, 0, 0, 0, 0, 0, 0, 0, 0, 0]) := by
  intro t
  refine ⟨rfl, rfl, histogram_sum (presentAges t), ?_⟩
  intro hall
  show histogram (presentAges t) = _
  unfold presentAges
  rw [filterMap_id_nil t.rows _ hall]
  rfl

/-- C4 witness: the all-absent age table yields all-zero counts. -/
theorem show_age_distrib_spec_witness :
    (show_age_distrib exAgeAbsentTable).1 = [0, 0, 0, 0, 0, 0, 0, 0, 0, 0] :=
  (show_age_distrib_spec exAgeAbsentTable).2.2.2 (by decide)
